import Mathlib

/-!
# XMC DMA memory-to-memory example: `main.c`

A shallow embedding of `src/main.c`: the two global buffers, the completion
flag `dma_complete`, the interrupt handler `GPDMA0_INTERRUPT_HANDLER` and the
control flow of `main`, as a step function on an explicit machine state.
`main` is interleaved with the handler and with word stores of the DMA engine
by a schedule of events.

Every call that leaves the file (board support, NVIC, GPDMA, GPIO) is an
entry appended to the state's trace, plus the one hardware bit it is known to
drive; so are the accesses of `main` and of the handler to the shared globals.
The `printf` blocks are compiled out (`ENABLE_XMC_DEBUG_PRINT` is 0).  The
globals `ptr_source_data` and `ptr_destination_data` hold the addresses of the
two buffers and are used nowhere in `main.c`; they have no part in the state.

Two things come from outside `main.c`: `memcmp` is the C library routine,
given here by its byte loop over the object representation of the arrays
(32-bit words, four bytes each, least significant first, as on the Cortex-M
target); `CY_ASSERT` is the assertion of `cy_utils.h`, taken to halt the CPU
when its argument is 0.
-/

namespace XmcDmaM2M

/-! ## Constants of `main.c` -/

/-- Length of the buffer to be transferred (`#define DATA_LENGTH 10`). -/
def DATA_LENGTH : Nat := 10

/-- The value of `sizeof(uint32_t)` on the target, in bytes. -/
def sizeof_uint32_t : Nat := 4

/-- The value of `sizeof(source_data)`: `DATA_LENGTH` elements of `uint32_t`. -/
def sizeof_source_data : Nat := DATA_LENGTH * sizeof_uint32_t

/-- The success value of `cy_rslt_t` (`CY_RSLT_SUCCESS`, declared in a header
that is not part of the sources; its value is 0). -/
def CY_RSLT_SUCCESS : Nat := 0

/-- The initialiser of `source_data`: `{0, 1, 2, 3, 4, 5, 6, 7, 8, 9}`. -/
def source_data_init : List Nat := [0, 1, 2, 3, 4, 5, 6, 7, 8, 9]

/-- The initial content of `destination_data`: a zero-initialised global. -/
def destination_data_init : List Nat := List.replicate DATA_LENGTH 0

/-! ## Byte-wise comparison -/

/-- Byte `k` (little-endian, `k < 4`) of the 32-bit word `w`. -/
def byte_of (w k : Nat) : Nat := (w / 256 ^ k) % 256

/-- The object representation of an array of `uint32_t`, as the byte found at
offset `k` from its first byte. -/
def array_bytes (a : List Nat) (k : Nat) : Nat :=
  byte_of (a.getD (k / sizeof_uint32_t) 0) (k % sizeof_uint32_t)

/-- The loop of the C library routine `memcmp`, started at byte offset `k` with
`n` bytes left: the first pair of differing bytes (read as `unsigned char`)
decides the result, and 0 is returned when none differs. -/
def memcmp_from (s1 s2 : Nat → Nat) (k : Nat) : Nat → Int
  | 0 => 0
  | n + 1 =>
    if s1 k ≠ s2 k then (s1 k : Int) - (s2 k : Int)
    else memcmp_from s1 s2 (k + 1) n

/-- The C library routine `memcmp(s1, s2, n)`; `s1` and `s2` give the byte at
each offset from the two pointers. -/
def memcmp (s1 s2 : Nat → Nat) (n : Nat) : Int := memcmp_from s1 s2 0 n

/-! ## Machine state -/

/-- Program points of `main`, named by the line of `main.c` they stand at. -/
inductive PC where
  /-- Line 118: `result = cybsp_init();` -/
  | L118
  /-- Line 119: `if (result != CY_RSLT_SUCCESS)` -/
  | L119
  /-- Line 121: `CY_ASSERT(0);` after a failed board initialisation -/
  | L121
  /-- Line 125: `cy_retarget_io_init(CYBSP_DEBUG_UART_HW);` -/
  | L125
  /-- Line 132: `NVIC_SetPriority(GPDMA0_0_IRQn, ...);` -/
  | L132
  /-- Line 133: `NVIC_EnableIRQ(GPDMA0_0_IRQn);` -/
  | L133
  /-- Line 136: `XMC_DMA_CH_Enable(DMA_HW, DMA_NUM);` -/
  | L136
  /-- Line 139: `while(dma_complete == 0)` -/
  | L139
  /-- Line 148: `if (memcmp(source_data, destination_data, sizeof(source_data)) != 0)` -/
  | L148
  /-- Line 154: `CY_ASSERT(0);` after a mismatch -/
  | L154
  /-- Line 159: `XMC_GPIO_SetOutputHigh(CYBSP_USER_LED_PORT, CYBSP_USER_LED_PIN);` -/
  | L159
  /-- Line 165: `for (;;)` -/
  | L165
  /-- The CPU is halted by a failed assertion. -/
  | halted
  deriving DecidableEq, Repr

/-- What the program does that is visible outside the CPU registers: calls
that leave `main.c` and accesses to the shared globals. -/
inductive Action where
  /-- `main` calls `cybsp_init()`. -/
  | cybsp_init
  /-- `main` calls `cy_retarget_io_init`. -/
  | cy_retarget_io_init
  /-- `main` calls `NVIC_SetPriority` for `GPDMA0_0_IRQn`. -/
  | NVIC_SetPriority
  /-- `main` calls `NVIC_EnableIRQ` for `GPDMA0_0_IRQn`. -/
  | NVIC_EnableIRQ
  /-- `main` calls `XMC_DMA_CH_Enable`. -/
  | XMC_DMA_CH_Enable
  /-- `main` reads `dma_complete` and finds the value `v`. -/
  | read_dma_complete (v : Nat)
  /-- `main` reads `source_data` and `destination_data` (the `memcmp` call). -/
  | read_buffers
  /-- `main` calls `XMC_GPIO_SetOutputHigh` on the user LED pin. -/
  | XMC_GPIO_SetOutputHigh
  /-- `main` fails an assertion: `CY_ASSERT(0)`. -/
  | CY_ASSERT_failed
  /-- The handler writes `v` to `dma_complete`. -/
  | write_dma_complete (v : Nat)
  /-- The handler calls `XMC_DMA_CH_ClearEventStatus` for the transfer-complete
  event. -/
  | XMC_DMA_CH_ClearEventStatus
  deriving DecidableEq, Repr

/-- The state of the program and of the hardware bits it drives. -/
structure State where
  /-- Program point of `main`. -/
  pc : PC
  /-- The local `result` of `main` (written at line 118 before it is read). -/
  result : Nat
  /-- `const uint32_t source_data[DATA_LENGTH]` -/
  source_data : List Nat
  /-- `uint32_t destination_data[DATA_LENGTH]` -/
  destination_data : List Nat
  /-- `volatile uint8_t dma_complete` -/
  dma_complete : Nat
  /-- Output level of the user LED pin. -/
  led : Bool
  /-- NVIC enable bit of `GPDMA0_0_IRQn`. -/
  irq_enabled : Bool
  /-- Enable bit of the DMA channel `DMA_NUM`. -/
  ch_enabled : Bool
  /-- Transfer-complete event status of the DMA channel `DMA_NUM`. -/
  event_status : Bool
  /-- Everything done so far, oldest first. -/
  trace : List Action
  deriving DecidableEq, Repr

/-- The state at reset: `main` not started, globals as initialised. -/
def init : State :=
  { pc := PC.L118
    result := 0
    source_data := source_data_init
    destination_data := destination_data_init
    dma_complete := 0
    led := false
    irq_enabled := false
    ch_enabled := false
    event_status := false
    trace := [] }

/-! ## The interrupt handler -/

/-- Line 88: `dma_complete = 1;` -/
def assign_dma_complete (s : State) : State :=
  { s with dma_complete := 1, trace := s.trace ++ [Action.write_dma_complete 1] }

/-- Line 91: `XMC_DMA_CH_ClearEventStatus(DMA_HW, DMA_NUM,
XMC_DMA_CH_EVENT_TRANSFER_COMPLETE);` -/
def XMC_DMA_CH_ClearEventStatus (s : State) : State :=
  { s with event_status := false,
           trace := s.trace ++ [Action.XMC_DMA_CH_ClearEventStatus] }

/-- The handler `GPDMA0_INTERRUPT_HANDLER`: its two statements, in program
order. -/
def GPDMA0_INTERRUPT_HANDLER (s : State) : State :=
  XMC_DMA_CH_ClearEventStatus (assign_dma_complete s)

/-! ## `main` -/

/-- Modelled from the spec: the `CY_ASSERT` of `cy_utils.h`, which is not among
the sources.  The spec calls it a fatal assertion that halts execution, with a
halted state that nothing leaves; so `CY_ASSERT(x)` with `x` zero moves to
`PC.halted`, and otherwise control continues at `next`. -/
def CY_ASSERT (x : Nat) (next : PC) : PC :=
  if x = 0 then PC.halted else next

/-- One step of `main`.  `bsp` is the value `cybsp_init()` returns. -/
def main_step (bsp : Nat) (s : State) : State :=
  match s.pc with
  | PC.L118 =>
    { s with pc := PC.L119, result := bsp, trace := s.trace ++ [Action.cybsp_init] }
  | PC.L119 =>
    if s.result ≠ CY_RSLT_SUCCESS then { s with pc := PC.L121 }
    else { s with pc := PC.L125 }
  | PC.L121 =>
    { s with pc := CY_ASSERT 0 PC.L125, trace := s.trace ++ [Action.CY_ASSERT_failed] }
  | PC.L125 =>
    { s with pc := PC.L132, trace := s.trace ++ [Action.cy_retarget_io_init] }
  | PC.L132 =>
    { s with pc := PC.L133, trace := s.trace ++ [Action.NVIC_SetPriority] }
  | PC.L133 =>
    { s with pc := PC.L136, irq_enabled := true,
             trace := s.trace ++ [Action.NVIC_EnableIRQ] }
  | PC.L136 =>
    { s with pc := PC.L139, ch_enabled := true,
             trace := s.trace ++ [Action.XMC_DMA_CH_Enable] }
  | PC.L139 =>
    if s.dma_complete = 0 then
      { s with pc := PC.L139,
               trace := s.trace ++ [Action.read_dma_complete s.dma_complete] }
    else
      { s with pc := PC.L148,
               trace := s.trace ++ [Action.read_dma_complete s.dma_complete] }
  | PC.L148 =>
    if memcmp (array_bytes s.source_data) (array_bytes s.destination_data)
        sizeof_source_data ≠ 0 then
      { s with pc := PC.L154, trace := s.trace ++ [Action.read_buffers] }
    else
      { s with pc := PC.L159, trace := s.trace ++ [Action.read_buffers] }
  | PC.L154 =>
    { s with pc := CY_ASSERT 0 PC.L165, trace := s.trace ++ [Action.CY_ASSERT_failed] }
  | PC.L159 =>
    { s with pc := PC.L165, led := true,
             trace := s.trace ++ [Action.XMC_GPIO_SetOutputHigh] }
  | PC.L165 => s
  | PC.halted => s

/-! ## Schedules -/

/-- What can happen next: `main` takes a step, the handler runs to completion
(it preempts `main`, never the other way round), or the DMA engine stores the
32-bit word `v` at index `i` of `destination_data`. -/
inductive Event where
  | main
  | irq
  | dma (i v : Nat)
  deriving DecidableEq, Repr

/-- A 32-bit store of the DMA engine to `destination_data[i]`. -/
def dma_store (i v : Nat) (s : State) : State :=
  { s with destination_data := s.destination_data.set i (v % 2 ^ 32) }

/-- One event applied to a state. -/
def step (bsp : Nat) (s : State) : Event → State
  | Event.main => main_step bsp s
  | Event.irq => GPDMA0_INTERRUPT_HANDLER s
  | Event.dma i v => dma_store i v s

/-- A whole schedule applied to a state, first event first. -/
def exec (bsp : Nat) (s : State) (es : List Event) : State :=
  es.foldl (step bsp) s

/-- The entries of a trace that `main` made (all but the handler's). -/
def is_main_action : Action → Bool
  | Action.write_dma_complete _ => false
  | Action.XMC_DMA_CH_ClearEventStatus => false
  | _ => true

/-- The actions of `main` in a state's trace, oldest first. -/
def main_trace (s : State) : List Action := s.trace.filter is_main_action

/-- What `main` does between reset and the wait loop when the board
initialisation succeeds, in program order. -/
def setup_trace : List Action :=
  [Action.cybsp_init, Action.cy_retarget_io_init, Action.NVIC_SetPriority,
   Action.NVIC_EnableIRQ, Action.XMC_DMA_CH_Enable]

/-- The trace of `n` polls of `dma_complete` that all read 0. -/
def polls (n : Nat) : List Action := List.replicate n (Action.read_dma_complete 0)

/-- The invariant of every reachable state: the buffers are well formed, and
the program point of `main` fixes what `main` has done so far. -/
def Inv (bsp : Nat) (s : State) : Prop :=
  s.source_data = source_data_init ∧ s.destination_data.length = DATA_LENGTH ∧
  (∀ w, w ∈ s.destination_data → w < 2 ^ 32) ∧
  (s.dma_complete = 0 ∨ s.dma_complete = 1) ∧
  match s.pc with
  | PC.L118 => main_trace s = [] ∧ s.led = false
  | PC.L119 => main_trace s = [Action.cybsp_init] ∧ s.led = false ∧ s.result = bsp
  | PC.L121 =>
    main_trace s = [Action.cybsp_init] ∧ s.led = false ∧ bsp ≠ CY_RSLT_SUCCESS
  | PC.L125 =>
    main_trace s = [Action.cybsp_init] ∧ s.led = false ∧ bsp = CY_RSLT_SUCCESS
  | PC.L132 =>
    main_trace s = [Action.cybsp_init, Action.cy_retarget_io_init] ∧ s.led = false ∧
      bsp = CY_RSLT_SUCCESS
  | PC.L133 =>
    main_trace s = [Action.cybsp_init, Action.cy_retarget_io_init, Action.NVIC_SetPriority] ∧
      s.led = false ∧ bsp = CY_RSLT_SUCCESS
  | PC.L136 =>
    main_trace s = [Action.cybsp_init, Action.cy_retarget_io_init, Action.NVIC_SetPriority,
      Action.NVIC_EnableIRQ] ∧ s.led = false ∧ bsp = CY_RSLT_SUCCESS
  | PC.L139 =>
    ∃ n, main_trace s = setup_trace ++ polls n ∧ s.led = false ∧ bsp = CY_RSLT_SUCCESS
  | PC.L148 =>
    ∃ n, main_trace s = setup_trace ++ polls n ++ [Action.read_dma_complete 1] ∧
      s.led = false ∧ bsp = CY_RSLT_SUCCESS
  | PC.L154 =>
    ∃ n, main_trace s = setup_trace ++ polls n ++
        [Action.read_dma_complete 1, Action.read_buffers] ∧
      s.led = false ∧ bsp = CY_RSLT_SUCCESS
  | PC.L159 =>
    ∃ n, main_trace s = setup_trace ++ polls n ++
        [Action.read_dma_complete 1, Action.read_buffers] ∧
      s.led = false ∧ bsp = CY_RSLT_SUCCESS
  | PC.L165 =>
    ∃ n, main_trace s = setup_trace ++ polls n ++
        [Action.read_dma_complete 1, Action.read_buffers, Action.XMC_GPIO_SetOutputHigh] ∧
      s.led = true ∧ bsp = CY_RSLT_SUCCESS
  | PC.halted =>
    (main_trace s = [Action.cybsp_init, Action.CY_ASSERT_failed] ∧ s.led = false ∧
      bsp ≠ CY_RSLT_SUCCESS) ∨
    (∃ n, main_trace s = setup_trace ++ polls n ++
        [Action.read_dma_complete 1, Action.read_buffers, Action.CY_ASSERT_failed] ∧
      s.led = false ∧ bsp = CY_RSLT_SUCCESS)

/-- Every write to `dma_complete` recorded in a trace wrote the value 1. -/
def writes_one (s : State) : Prop :=
  ∀ v, Action.write_dma_complete v ∈ s.trace → v = 1

/-- Where `main` stands `k` steps after it stood at the comparison (line 148)
in state `s0`. -/
def verify_phase (s0 : State) : Nat → State → Prop
  | 0, s =>
    s.pc = PC.L148 ∧ s.led = s0.led ∧ s.source_data = s0.source_data ∧
      s.destination_data = s0.destination_data ∧ main_trace s = main_trace s0
  | 1, s =>
    (if memcmp (array_bytes s0.source_data) (array_bytes s0.destination_data)
          sizeof_source_data ≠ 0
      then s.pc = PC.L154 else s.pc = PC.L159) ∧
      s.led = s0.led ∧ main_trace s = main_trace s0 ++ [Action.read_buffers]
  | _ + 2, s =>
    if memcmp (array_bytes s0.source_data) (array_bytes s0.destination_data)
          sizeof_source_data ≠ 0
    then s.pc = PC.halted ∧ s.led = s0.led ∧
      main_trace s = main_trace s0 ++ [Action.read_buffers, Action.CY_ASSERT_failed]
    else s.pc = PC.L165 ∧ s.led = true ∧
      main_trace s = main_trace s0 ++ [Action.read_buffers, Action.XMC_GPIO_SetOutputHigh]

/-- The DMA engine stores the words of `d` to `destination_data`, index 0
first. -/
def dma_writes (d : List Nat) : List Event :=
  (List.range d.length).map (fun i => Event.dma i (d.getD i 0))

/-- A schedule that brings `main` to the comparison: `main` runs up to the wait
loop, the DMA engine stores `d`, the handler runs, `main` polls and finds 1. -/
def run_to_comparison (d : List Nat) : List Event :=
  List.replicate 6 Event.main ++ dma_writes d ++ [Event.irq, Event.main]

/-- Where `main` stands after `k` steps when `cybsp_init()` returned `bsp`, a
value other than `CY_RSLT_SUCCESS`. -/
def fail_phase (bsp : Nat) : Nat → State → Prop
  | 0, s => s.pc = PC.L118
  | 1, s => s.pc = PC.L119 ∧ s.result = bsp
  | 2, s => s.pc = PC.L121
  | _ + 3, s => s.pc = PC.halted

/-- Where `main` stands after `k` steps when `cybsp_init()` succeeded and the
handler has not run: the hardware bits it has set and all it has done. -/
def wait_phase : Nat → State → Prop
  | 0, s => s.pc = PC.L118 ∧ s.dma_complete = 0 ∧ s.led = false ∧ s.trace = []
  | 1, s => s.pc = PC.L119 ∧ s.result = CY_RSLT_SUCCESS ∧ s.dma_complete = 0 ∧
      s.led = false ∧ s.trace = [Action.cybsp_init]
  | 2, s => s.pc = PC.L125 ∧ s.dma_complete = 0 ∧ s.led = false ∧
      s.trace = [Action.cybsp_init]
  | 3, s => s.pc = PC.L132 ∧ s.dma_complete = 0 ∧ s.led = false ∧
      s.trace = [Action.cybsp_init, Action.cy_retarget_io_init]
  | 4, s => s.pc = PC.L133 ∧ s.dma_complete = 0 ∧ s.led = false ∧
      s.trace = [Action.cybsp_init, Action.cy_retarget_io_init, Action.NVIC_SetPriority]
  | 5, s => s.pc = PC.L136 ∧ s.dma_complete = 0 ∧ s.led = false ∧
      s.trace = [Action.cybsp_init, Action.cy_retarget_io_init, Action.NVIC_SetPriority,
        Action.NVIC_EnableIRQ]
  | n + 6, s => s.pc = PC.L139 ∧ s.dma_complete = 0 ∧ s.led = false ∧
      s.trace = setup_trace ++ polls n

/-- The hardware bits that `main` drives are set only by the calls recorded in
the trace. -/
def bits_follow_trace (s : State) : Prop :=
  (s.irq_enabled = true ↔ Action.NVIC_EnableIRQ ∈ s.trace) ∧
  (s.ch_enabled = true ↔ Action.XMC_DMA_CH_Enable ∈ s.trace) ∧
  (s.led = true ↔ Action.XMC_GPIO_SetOutputHigh ∈ s.trace)

/-- What holds of every state as long as the handler has not run: the flag is
0, `main` has not come past the wait loop, the buffers are unread and the LED
is low. -/
def not_completed (s : State) : Prop :=
  s.dma_complete = 0 ∧ s.led = false ∧
  Action.read_buffers ∉ s.trace ∧ Action.XMC_GPIO_SetOutputHigh ∉ s.trace ∧
  s.pc ≠ PC.L148 ∧ s.pc ≠ PC.L154 ∧ s.pc ≠ PC.L159 ∧ s.pc ≠ PC.L165

/-- The run of the success scenario: `main` runs up to the wait loop and polls
`k` times, the DMA engine copies `source_data` word by word, the handler fires
once, and `main` takes three more steps: last poll, comparison, LED. -/
def success_run (k : Nat) : List Event :=
  List.replicate 6 Event.main ++ List.replicate k Event.main ++
    dma_writes source_data_init ++ [Event.irq] ++ [Event.main, Event.main, Event.main]

/-- The state in which `main` waits, after `k` polls that read 0. -/
def waiting_state (k : Nat) : State :=
  { pc := PC.L139
    result := CY_RSLT_SUCCESS
    source_data := source_data_init
    destination_data := destination_data_init
    dma_complete := 0
    led := false
    irq_enabled := true
    ch_enabled := true
    event_status := false
    trace := setup_trace ++ polls k }

/-! ## Byte-wise comparison: lemmas -/

theorem memcmp_from_eq_zero_iff (s1 s2 : Nat → Nat) (n : Nat) :
    ∀ k, memcmp_from s1 s2 k n = 0 ↔ ∀ j, j < n → s1 (k + j) = s2 (k + j) := by
  induction n with
  | zero => intro k; simp [memcmp_from]
  | succ n ih =>
    intro k
    unfold memcmp_from
    by_cases h : s1 k = s2 k
    · simp only [ne_eq, h, not_true_eq_false, if_false]
      rw [ih (k + 1)]
      constructor
      · intro hj j hlt
        cases j with
        | zero => simpa using h
        | succ j =>
          have := hj j (by omega)
          rwa [show k + (j + 1) = k + 1 + j by omega]
      · intro hj j hlt
        have := hj (j + 1) (by omega)
        rwa [show k + (j + 1) = k + 1 + j by omega] at this
    · simp only [ne_eq, h, not_false_eq_true, if_true]
      constructor
      · intro h0
        exact absurd (by omega : s1 k = s2 k) h
      · intro hj
        exact absurd (by simpa using hj 0 (by omega)) h

theorem memcmp_eq_zero_iff (s1 s2 : Nat → Nat) (n : Nat) :
    memcmp s1 s2 n = 0 ↔ ∀ j, j < n → s1 j = s2 j := by
  unfold memcmp
  rw [memcmp_from_eq_zero_iff]
  simp

theorem memcmp_from_congr (s1 s2 t1 t2 : Nat → Nat) (n : Nat) :
    ∀ k, (∀ j, j < n → s1 (k + j) = t1 (k + j)) → (∀ j, j < n → s2 (k + j) = t2 (k + j)) →
      memcmp_from s1 s2 k n = memcmp_from t1 t2 k n := by
  induction n with
  | zero => intro k _ _; rfl
  | succ n ih =>
    intro k h1 h2
    have e1 : s1 k = t1 k := by simpa using h1 0 (by omega)
    have e2 : s2 k = t2 k := by simpa using h2 0 (by omega)
    have hrec : memcmp_from s1 s2 (k + 1) n = memcmp_from t1 t2 (k + 1) n := by
      apply ih
      · intro j hj
        have := h1 (j + 1) (by omega)
        rwa [show k + (j + 1) = k + 1 + j by omega] at this
      · intro j hj
        have := h2 (j + 1) (by omega)
        rwa [show k + (j + 1) = k + 1 + j by omega] at this
    unfold memcmp_from
    rw [e1, e2, hrec]

theorem word_eq_of_bytes_eq (a b : Nat) (ha : a < 2 ^ 32) (hb : b < 2 ^ 32)
    (h : ∀ j, j < 4 → byte_of a j = byte_of b j) : a = b := by
  have h0 := h 0 (by omega)
  have h1 := h 1 (by omega)
  have h2 := h 2 (by omega)
  have h3 := h 3 (by omega)
  simp only [byte_of] at h0 h1 h2 h3
  norm_num at h0 h1 h2 h3 ha hb
  omega

theorem array_bytes_eq_iff (a b : List Nat) (n : Nat)
    (ha : ∀ w, w ∈ a → w < 2 ^ 32) (hb : ∀ w, w ∈ b → w < 2 ^ 32)
    (hla : a.length = n) (hlb : b.length = n) :
    (∀ k, k < n * sizeof_uint32_t → array_bytes a k = array_bytes b k) ↔
      ∀ i, i < n → a[i]? = b[i]? := by
  constructor
  · intro h i hi
    have hia : i < a.length := by omega
    have hib : i < b.length := by omega
    rw [List.getElem?_eq_getElem hia, List.getElem?_eq_getElem hib]
    congr 1
    apply word_eq_of_bytes_eq _ _ (ha _ (List.getElem_mem _)) (hb _ (List.getElem_mem _))
    intro j hj
    have := h (i * 4 + j) (by simp only [sizeof_uint32_t]; omega)
    simp only [array_bytes, sizeof_uint32_t] at this
    rw [show (i * 4 + j) / 4 = i by omega, show (i * 4 + j) % 4 = j by omega] at this
    simpa [List.getD_eq_getElem?_getD, List.getElem?_eq_getElem hia,
      List.getElem?_eq_getElem hib] using this
  · intro h k hk
    simp only [sizeof_uint32_t] at hk
    have := h (k / 4) (by omega)
    simp only [array_bytes, sizeof_uint32_t, List.getD_eq_getElem?_getD, this]

theorem memcmp_arrays_eq_zero_iff (a b : List Nat)
    (hla : a.length = DATA_LENGTH) (hlb : b.length = DATA_LENGTH)
    (ha : ∀ w, w ∈ a → w < 2 ^ 32) (hb : ∀ w, w ∈ b → w < 2 ^ 32) :
    memcmp (array_bytes a) (array_bytes b) sizeof_source_data = 0 ↔
      ∀ i, i < DATA_LENGTH → a[i]? = b[i]? := by
  rw [memcmp_eq_zero_iff]
  exact array_bytes_eq_iff a b DATA_LENGTH ha hb hla hlb

/-! ## Schedules: lemmas -/

theorem exec_nil (bsp : Nat) (s : State) : exec bsp s [] = s := rfl

theorem exec_cons (bsp : Nat) (s : State) (e : Event) (es : List Event) :
    exec bsp s (e :: es) = exec bsp (step bsp s e) es := rfl

theorem exec_append (bsp : Nat) (s : State) (es fs : List Event) :
    exec bsp s (es ++ fs) = exec bsp (exec bsp s es) fs := by
  simp [exec, List.foldl_append]

/-- A property indexed by the number of steps `main` has taken is carried along
any schedule whose events all preserve it. -/
theorem exec_phase (bsp : Nat) (P : Nat → State → Prop) (ok : Event → Prop)
    (hmain : ok Event.main → ∀ k s, P k s → P (k + 1) (main_step bsp s))
    (hirq : ok Event.irq → ∀ k s, P k s → P k (GPDMA0_INTERRUPT_HANDLER s))
    (hdma : ∀ i v, ok (Event.dma i v) → ∀ k s, P k s → P k (dma_store i v s)) :
    ∀ (es : List Event) (s : State) (k : Nat), (∀ e, e ∈ es → ok e) → P k s →
      P (k + es.count Event.main) (exec bsp s es) := by
  intro es
  induction es with
  | nil => intro s k _ h; simpa [exec_nil] using h
  | cons e es ih =>
    intro s k hok h
    have hes : ∀ x, x ∈ es → ok x := fun x hx => hok x (List.mem_cons_of_mem _ hx)
    have he : ok e := hok e (List.mem_cons_self _ _)
    rw [exec_cons]
    cases e with
    | main =>
      have := ih (main_step bsp s) (k + 1) hes (hmain he k s h)
      rw [List.count_cons_self]
      rwa [show k + (List.count Event.main es + 1) = k + 1 + List.count Event.main es by omega]
    | irq =>
      have := ih (GPDMA0_INTERRUPT_HANDLER s) k hes (hirq he k s h)
      rwa [List.count_cons_of_ne (by decide)]
    | dma i v =>
      have := ih (dma_store i v s) k hes (hdma i v he k s h)
      rwa [List.count_cons_of_ne (by simp)]

/-- A property that every event preserves holds along every schedule. -/
theorem exec_invariant (bsp : Nat) (P : State → Prop)
    (hmain : ∀ s, P s → P (main_step bsp s))
    (hirq : ∀ s, P s → P (GPDMA0_INTERRUPT_HANDLER s))
    (hdma : ∀ i v s, P s → P (dma_store i v s)) :
    ∀ (es : List Event) (s : State), P s → P (exec bsp s es) := by
  intro es s h
  exact exec_phase bsp (fun _ => P) (fun _ => True) (fun _ _ s hs => hmain s hs)
    (fun _ _ s hs => hirq s hs) (fun i v _ _ s hs => hdma i v s hs) es s 0
    (fun _ _ => trivial) h

theorem polls_succ (n : Nat) : polls (n + 1) = polls n ++ [Action.read_dma_complete 0] := by
  simp [polls, List.replicate_succ']

theorem Inv_init (bsp : Nat) : Inv bsp init := by
  simp [Inv, init, main_trace, source_data_init, destination_data_init, DATA_LENGTH]

theorem Inv_main_step (bsp : Nat) (s : State) (h : Inv bsp s) : Inv bsp (main_step bsp s) := by
  obtain ⟨pc, result, src, dst, flag, led, irqen, chen, ev, trace⟩ := s
  obtain ⟨h1, h2, h3, h4, h5⟩ := h
  refine ⟨?_, ?_, ?_, ?_, ?_⟩
  · cases pc <;> simp only [main_step] <;> (try split) <;> exact h1
  · cases pc <;> simp only [main_step] <;> (try split) <;> exact h2
  · cases pc <;> simp only [main_step] <;> (try split) <;> exact h3
  · cases pc <;> simp only [main_step] <;> (try split) <;> exact h4
  · cases pc
    case L139 =>
      obtain ⟨n, ht, hl, hb⟩ := h5
      simp only [main_trace] at ht
      by_cases hf : flag = 0
      · subst hf
        simp only [main_step, if_true]
        refine ⟨n + 1, ?_, hl, hb⟩
        simp [main_trace, ht, polls_succ, is_main_action]
      · have hf1 : flag = 1 := by
          rcases h4 with h4 | h4
          · exact absurd h4 hf
          · exact h4
        subst hf1
        simp only [main_step, if_false, one_ne_zero]
        refine ⟨n, ?_, hl, hb⟩
        simp [main_trace, ht, is_main_action]
    case L148 =>
      obtain ⟨n, ht, hl, hb⟩ := h5
      simp only [main_trace] at ht
      by_cases hc : memcmp (array_bytes src) (array_bytes dst) sizeof_source_data = 0
      · simp only [main_step, hc, ne_eq, not_true_eq_false, if_false]
        exact ⟨n, by simp [main_trace, ht, is_main_action], hl, hb⟩
      · simp only [main_step, hc, ne_eq, not_false_eq_true, if_true]
        exact ⟨n, by simp [main_trace, ht, is_main_action], hl, hb⟩
    case L119 =>
      obtain ⟨ht, hl, hr⟩ := h5
      simp only at hr
      by_cases hb : bsp = CY_RSLT_SUCCESS
      · simp only [main_step, hr, hb, ne_eq, not_true_eq_false, if_false]
        exact ⟨ht, hl, trivial⟩
      · simp only [main_step, hr, hb, ne_eq, not_false_eq_true, if_true]
        exact ⟨ht, hl, trivial⟩
    case L136 =>
      obtain ⟨ht, hl, hb⟩ := h5
      simp only [main_trace] at ht
      exact ⟨0, by simp [main_step, main_trace, ht, is_main_action, setup_trace, polls], hl, hb⟩
    case L154 =>
      obtain ⟨n, ht, hl, hb⟩ := h5
      simp only [main_trace] at ht
      exact Or.inr ⟨n, by simp [main_step, CY_ASSERT, main_trace, ht, is_main_action], hl, hb⟩
    case L159 =>
      obtain ⟨n, ht, hl, hb⟩ := h5
      simp only [main_trace] at ht
      exact ⟨n, by simp [main_step, main_trace, ht, is_main_action], rfl, hb⟩
    case L165 => exact h5
    case halted => exact h5
    all_goals
      simp only [main_trace] at h5
      simp [main_step, main_trace, is_main_action, CY_ASSERT, h5]

theorem main_trace_handler (s : State) :
    main_trace (GPDMA0_INTERRUPT_HANDLER s) = main_trace s := by
  simp [main_trace, GPDMA0_INTERRUPT_HANDLER, XMC_DMA_CH_ClearEventStatus,
    assign_dma_complete, is_main_action]

theorem Inv_handler (bsp : Nat) (s : State) (h : Inv bsp s) :
    Inv bsp (GPDMA0_INTERRUPT_HANDLER s) := by
  obtain ⟨h1, h2, h3, _, h5⟩ := h
  refine ⟨h1, h2, h3, Or.inr rfl, ?_⟩
  have ht := main_trace_handler s
  obtain ⟨pc, result, src, dst, flag, led, irqen, chen, ev, trace⟩ := s
  simp only [main_trace] at h5 ht
  cases pc <;>
    simpa [GPDMA0_INTERRUPT_HANDLER, XMC_DMA_CH_ClearEventStatus, assign_dma_complete,
      main_trace, is_main_action] using h5

theorem Inv_dma_store (bsp i v : Nat) (s : State) (h : Inv bsp s) :
    Inv bsp (dma_store i v s) := by
  obtain ⟨h1, h2, h3, h4, h5⟩ := h
  refine ⟨h1, ?_, ?_, h4, h5⟩
  · simpa [dma_store] using h2
  · intro w hw
    simp only [dma_store] at hw
    rcases List.mem_or_eq_of_mem_set hw with hw | hw
    · exact h3 w hw
    · subst hw
      exact Nat.mod_lt _ (by norm_num)

/-- Every state reachable from reset satisfies the invariant. -/
theorem Inv_exec (bsp : Nat) (es : List Event) : Inv bsp (exec bsp init es) :=
  exec_invariant bsp (Inv bsp) (Inv_main_step bsp) (Inv_handler bsp)
    (fun i v s h => Inv_dma_store bsp i v s h) es init (Inv_init bsp)

theorem main_step_dma_complete (bsp : Nat) (s : State) :
    (main_step bsp s).dma_complete = s.dma_complete := by
  obtain ⟨pc, result, src, dst, flag, led, irqen, chen, ev, trace⟩ := s
  cases pc <;> simp only [main_step] <;> (try split) <;> rfl

theorem main_step_destination_data (bsp : Nat) (s : State) :
    (main_step bsp s).destination_data = s.destination_data := by
  obtain ⟨pc, result, src, dst, flag, led, irqen, chen, ev, trace⟩ := s
  cases pc <;> simp only [main_step] <;> (try split) <;> rfl

theorem main_step_source_data (bsp : Nat) (s : State) :
    (main_step bsp s).source_data = s.source_data := by
  obtain ⟨pc, result, src, dst, flag, led, irqen, chen, ev, trace⟩ := s
  cases pc <;> simp only [main_step] <;> (try split) <;> rfl

theorem writes_one_main_step (bsp : Nat) (s : State) (h : writes_one s) :
    writes_one (main_step bsp s) := by
  obtain ⟨pc, result, src, dst, flag, led, irqen, chen, ev, trace⟩ := s
  intro v hv
  apply h v
  cases pc <;> simp only [main_step] at hv <;> (try split at hv) <;>
    first
      | exact hv
      | simpa using hv

theorem writes_one_exec (bsp : Nat) (es : List Event) : writes_one (exec bsp init es) := by
  apply exec_invariant bsp writes_one (writes_one_main_step bsp)
  · intro s h v hv
    simp only [GPDMA0_INTERRUPT_HANDLER, XMC_DMA_CH_ClearEventStatus, assign_dma_complete,
      List.append_assoc, List.mem_append, List.mem_cons, List.mem_singleton,
      Action.write_dma_complete.injEq, List.not_mem_nil, or_false, reduceCtorEq] at hv
    rcases hv with hv | hv
    · exact h v hv
    · exact hv
  · intro i v s h
    exact h
  · intro v hv
    simp [init] at hv

theorem exec_dma_complete_of_one (bsp : Nat) (es : List Event) (s : State)
    (h : s.dma_complete = 1) : (exec bsp s es).dma_complete = 1 := by
  apply exec_invariant bsp (fun s => s.dma_complete = 1) _ _ _ es s h
  · intro s hs
    rw [main_step_dma_complete]
    exact hs
  · intro s _
    rfl
  · intro i v s hs
    exact hs

theorem exec_dma_complete_iff (bsp : Nat) (es : List Event) :
    ∀ s : State, s.dma_complete = 0 →
      ((exec bsp s es).dma_complete = 1 ↔ Event.irq ∈ es) := by
  induction es with
  | nil => intro s h; simp [exec_nil, h]
  | cons e es ih =>
    intro s h
    rw [exec_cons]
    cases e with
    | main =>
      have := ih (main_step bsp s) (by rw [main_step_dma_complete]; exact h)
      simpa [step] using this
    | irq =>
      simp only [step, List.mem_cons, true_or, iff_true]
      exact exec_dma_complete_of_one bsp es _ rfl
    | dma i v =>
      have := ih (dma_store i v s) h
      simpa [step] using this

/-! ## Traces: lemmas -/

/-- An element that occurs once in a list splits it in one way only. -/
theorem split_unique {α : Type} {a : α} :
    ∀ {l1 r1 l2 r2 : List α}, a ∉ l1 → a ∉ r1 → l1 ++ a :: r1 = l2 ++ a :: r2 →
      l2 = l1 ∧ r2 = r1 := by
  intro l1
  induction l1 with
  | nil =>
    intro r1 l2 r2 _ hr h
    cases l2 with
    | nil => simpa using h.symm
    | cons b l2 =>
      simp only [List.nil_append, List.cons_append, List.cons.injEq] at h
      exact absurd (by rw [h.2]; simp) hr
  | cons c l1 ih =>
    intro r1 l2 r2 hl hr h
    simp only [List.mem_cons, not_or] at hl
    cases l2 with
    | nil =>
      simp only [List.nil_append, List.cons_append, List.cons.injEq] at h
      exact absurd h.1.symm hl.1
    | cons b l2 =>
      simp only [List.cons_append, List.cons.injEq] at h
      obtain ⟨e1, e2⟩ := ih hl.2 hr h.2
      exact ⟨by rw [e1, h.1], e2⟩

theorem mem_main_trace (s : State) (a : Action) (ha : is_main_action a = true) :
    a ∈ main_trace s ↔ a ∈ s.trace := by
  simp [main_trace, List.mem_filter, ha]

/-- A split of the whole trace at an action of `main` is a split of the trace
of `main` at the same action. -/
theorem main_trace_split (s : State) (a : Action) (ha : is_main_action a = true)
    (pre post : List Action) (h : s.trace = pre ++ a :: post) :
    main_trace s = pre.filter is_main_action ++ a :: post.filter is_main_action := by
  simp [main_trace, h, List.filter_append, List.filter_cons, ha]

theorem not_mem_polls (a : Action) (n : Nat) (h : a ≠ Action.read_dma_complete 0) :
    a ∉ polls n := by
  intro hm
  exact h (List.eq_of_mem_replicate hm)

/-- The trace of `main` in a reachable state either has no `XMC_DMA_CH_Enable`, or
has exactly one, right after the four actions that arm the interrupt. -/
theorem main_trace_enable_view (bsp : Nat) (s : State) (h : Inv bsp s) :
    Action.XMC_DMA_CH_Enable ∉ main_trace s ∨
    ∃ rest, main_trace s = [Action.cybsp_init, Action.cy_retarget_io_init,
        Action.NVIC_SetPriority, Action.NVIC_EnableIRQ] ++ Action.XMC_DMA_CH_Enable :: rest ∧
      Action.XMC_DMA_CH_Enable ∉ rest := by
  obtain ⟨_, _, _, _, h5⟩ := h
  have np : ∀ n, Action.XMC_DMA_CH_Enable ∉ polls n :=
    fun n => not_mem_polls _ n (by simp)
  cases hpc : s.pc <;> rw [hpc] at h5 <;> simp only at h5
  case L139 =>
    obtain ⟨n, ht, _⟩ := h5
    exact Or.inr ⟨polls n, by simp [ht, setup_trace], np n⟩
  case L148 =>
    obtain ⟨n, ht, _⟩ := h5
    exact Or.inr ⟨polls n ++ [Action.read_dma_complete 1], by simp [ht, setup_trace],
      by simp [np n]⟩
  case L154 =>
    obtain ⟨n, ht, _⟩ := h5
    exact Or.inr ⟨polls n ++ [Action.read_dma_complete 1, Action.read_buffers],
      by simp [ht, setup_trace], by simp [np n]⟩
  case L159 =>
    obtain ⟨n, ht, _⟩ := h5
    exact Or.inr ⟨polls n ++ [Action.read_dma_complete 1, Action.read_buffers],
      by simp [ht, setup_trace], by simp [np n]⟩
  case L165 =>
    obtain ⟨n, ht, _⟩ := h5
    exact Or.inr ⟨polls n ++ [Action.read_dma_complete 1, Action.read_buffers,
      Action.XMC_GPIO_SetOutputHigh], by simp [ht, setup_trace], by simp [np n]⟩
  case halted =>
    rcases h5 with ⟨ht, _⟩ | ⟨n, ht, _⟩
    · exact Or.inl (by simp [ht])
    · exact Or.inr ⟨polls n ++ [Action.read_dma_complete 1, Action.read_buffers,
        Action.CY_ASSERT_failed], by simp [ht, setup_trace], by simp [np n]⟩
  all_goals exact Or.inl (by simp [h5.1])

/-- The trace of `main` in a reachable state either has no `read_buffers`, or has
exactly one, right after the poll that read 1. -/
theorem main_trace_read_view (bsp : Nat) (s : State) (h : Inv bsp s) :
    Action.read_buffers ∉ main_trace s ∨
    ∃ n rest, main_trace s = (setup_trace ++ polls n ++ [Action.read_dma_complete 1]) ++
        Action.read_buffers :: rest ∧
      Action.read_buffers ∉ rest := by
  obtain ⟨_, _, _, _, h5⟩ := h
  have np : ∀ n, Action.read_buffers ∉ polls n :=
    fun n => not_mem_polls _ n (by simp)
  cases hpc : s.pc <;> rw [hpc] at h5 <;> simp only at h5
  case L139 =>
    obtain ⟨n, ht, _⟩ := h5
    exact Or.inl (by simp [ht, setup_trace, np n])
  case L148 =>
    obtain ⟨n, ht, _⟩ := h5
    exact Or.inl (by simp [ht, setup_trace, np n])
  case L154 =>
    obtain ⟨n, ht, _⟩ := h5
    exact Or.inr ⟨n, [], by simp [ht], by simp⟩
  case L159 =>
    obtain ⟨n, ht, _⟩ := h5
    exact Or.inr ⟨n, [], by simp [ht], by simp⟩
  case L165 =>
    obtain ⟨n, ht, _⟩ := h5
    exact Or.inr ⟨n, [Action.XMC_GPIO_SetOutputHigh], by simp [ht], by simp⟩
  case halted =>
    rcases h5 with ⟨ht, _⟩ | ⟨n, ht, _⟩
    · exact Or.inl (by simp [ht])
    · exact Or.inr ⟨n, [Action.CY_ASSERT_failed], by simp [ht], by simp⟩
  all_goals exact Or.inl (by simp [h5.1])

theorem main_step_pc_L148 (bsp : Nat) (s : State) (h : (main_step bsp s).pc = PC.L148) :
    s.pc = PC.L139 ∧ s.dma_complete ≠ 0 := by
  obtain ⟨pc, result, src, dst, flag, led, irqen, chen, ev, trace⟩ := s
  cases pc
  case L139 =>
    by_cases hf : flag = 0
    · simp [main_step, hf] at h
    · exact ⟨rfl, hf⟩
  case L119 =>
    by_cases hr : result = CY_RSLT_SUCCESS <;> simp [main_step, hr] at h
  case L148 =>
    by_cases hc : memcmp (array_bytes src) (array_bytes dst) sizeof_source_data = 0 <;>
      simp [main_step, hc] at h
  all_goals simp [main_step, CY_ASSERT] at h

theorem main_step_reads_destination_only_at_L148 (bsp : Nat) (s : State) (d : List Nat)
    (h : s.pc ≠ PC.L148) :
    main_step bsp { s with destination_data := d } =
      { main_step bsp s with destination_data := d } := by
  obtain ⟨pc, result, src, dst, flag, led, irqen, chen, ev, trace⟩ := s
  cases pc
  case L148 => exact absurd rfl h
  case L139 => by_cases hf : flag = 0 <;> simp [main_step, hf]
  case L119 => by_cases hr : result = CY_RSLT_SUCCESS <;> simp [main_step, hr]
  all_goals simp [main_step]

/-! ## Order of the actions of `main` -/

/-- C7: wherever `XMC_DMA_CH_Enable` stands in the trace of an execution,
`NVIC_SetPriority` and `NVIC_EnableIRQ` stand before it, and the channel is
enabled nowhere else in the trace: neither before nor after. -/
theorem channel_enabled_once_after_interrupt_armed (bsp : Nat) (es : List Event)
    (pre post : List Action)
    (h : (exec bsp init es).trace = pre ++ Action.XMC_DMA_CH_Enable :: post) :
    Action.NVIC_SetPriority ∈ pre ∧ Action.NVIC_EnableIRQ ∈ pre ∧
    Action.XMC_DMA_CH_Enable ∉ pre ∧ Action.XMC_DMA_CH_Enable ∉ post ∧
    (exec bsp init es).trace.count Action.XMC_DMA_CH_Enable = 1 := by
  have hs := main_trace_split _ Action.XMC_DMA_CH_Enable rfl pre post h
  have key : pre.filter is_main_action = [Action.cybsp_init, Action.cy_retarget_io_init,
        Action.NVIC_SetPriority, Action.NVIC_EnableIRQ] ∧
      Action.XMC_DMA_CH_Enable ∉ post.filter is_main_action := by
    rcases main_trace_enable_view bsp _ (Inv_exec bsp es) with hno | ⟨rest, ht, hrest⟩
    · exact absurd (by rw [hs]; simp) hno
    · rw [hs] at ht
      obtain ⟨e1, e2⟩ := split_unique (by simp) hrest ht.symm
      exact ⟨e1, by rw [e2]; exact hrest⟩
  obtain ⟨hpre, hpost⟩ := key
  have m1 : Action.NVIC_SetPriority ∈ pre :=
    (List.mem_filter.1 (by rw [hpre]; simp : Action.NVIC_SetPriority ∈
      pre.filter is_main_action)).1
  have m2 : Action.NVIC_EnableIRQ ∈ pre :=
    (List.mem_filter.1 (by rw [hpre]; simp : Action.NVIC_EnableIRQ ∈
      pre.filter is_main_action)).1
  have n1 : Action.XMC_DMA_CH_Enable ∉ pre := by
    intro hm
    have : Action.XMC_DMA_CH_Enable ∈ pre.filter is_main_action :=
      List.mem_filter.2 ⟨hm, rfl⟩
    rw [hpre] at this
    simp at this
  have n2 : Action.XMC_DMA_CH_Enable ∉ post := by
    intro hm
    exact hpost (List.mem_filter.2 ⟨hm, rfl⟩)
  refine ⟨m1, m2, n1, n2, ?_⟩
  rw [h, List.count_append, List.count_cons_self, List.count_eq_zero_of_not_mem n1,
    List.count_eq_zero_of_not_mem n2]

/-- Witness of C7: `main` runs up to the wait loop and polls once. -/
theorem channel_enabled_once_after_interrupt_armed_witness :
    Action.NVIC_SetPriority ∈ [Action.cybsp_init, Action.cy_retarget_io_init,
      Action.NVIC_SetPriority, Action.NVIC_EnableIRQ] ∧
    Action.NVIC_EnableIRQ ∈ [Action.cybsp_init, Action.cy_retarget_io_init,
      Action.NVIC_SetPriority, Action.NVIC_EnableIRQ] ∧
    Action.XMC_DMA_CH_Enable ∉ [Action.cybsp_init, Action.cy_retarget_io_init,
      Action.NVIC_SetPriority, Action.NVIC_EnableIRQ] ∧
    Action.XMC_DMA_CH_Enable ∉ [Action.read_dma_complete 0] ∧
    (exec 0 init [Event.main, Event.main, Event.main, Event.main, Event.main, Event.main,
      Event.main]).trace.count Action.XMC_DMA_CH_Enable = 1 :=
  channel_enabled_once_after_interrupt_armed 0
    [Event.main, Event.main, Event.main, Event.main, Event.main, Event.main, Event.main]
    [Action.cybsp_init, Action.cy_retarget_io_init, Action.NVIC_SetPriority,
      Action.NVIC_EnableIRQ]
    [Action.read_dma_complete 0] (by decide)

/-- C4: wherever the read of the buffers stands in the trace of an execution,
a poll of `dma_complete` that returned a non-zero value stands before it, and
the buffers are read nowhere else in the trace; `main` comes to the comparison
only from a poll that found the flag non-zero; no step of `main` writes
`destination_data`, and no step other than the comparison depends on its
content. -/
theorem destination_accessed_only_after_completion (bsp : Nat) (es : List Event)
    (pre post : List Action)
    (h : (exec bsp init es).trace = pre ++ Action.read_buffers :: post) :
    (∃ v, v ≠ 0 ∧ Action.read_dma_complete v ∈ pre) ∧
    Action.read_buffers ∉ pre ∧ Action.read_buffers ∉ post ∧
    (∀ s, (main_step bsp s).pc = PC.L148 → s.pc = PC.L139 ∧ s.dma_complete ≠ 0) ∧
    (∀ s, (main_step bsp s).destination_data = s.destination_data) ∧
    (∀ s d, s.pc ≠ PC.L148 →
      main_step bsp { s with destination_data := d } =
        { main_step bsp s with destination_data := d }) := by
  have hs := main_trace_split _ Action.read_buffers rfl pre post h
  have key : (∃ n, pre.filter is_main_action =
        setup_trace ++ polls n ++ [Action.read_dma_complete 1]) ∧
      Action.read_buffers ∉ post.filter is_main_action := by
    rcases main_trace_read_view bsp _ (Inv_exec bsp es) with hno | ⟨n, rest, ht, hrest⟩
    · exact absurd (by rw [hs]; simp) hno
    · rw [hs] at ht
      have hn : Action.read_buffers ∉ setup_trace ++ polls n ++ [Action.read_dma_complete 1] := by
        simp [setup_trace, not_mem_polls Action.read_buffers n (by simp)]
      obtain ⟨e1, e2⟩ := split_unique hn hrest ht.symm
      exact ⟨⟨n, e1⟩, by rw [e2]; exact hrest⟩
  obtain ⟨⟨n, hpre⟩, hpost⟩ := key
  have m1 : Action.read_dma_complete 1 ∈ pre :=
    (List.mem_filter.1 (by rw [hpre]; simp : Action.read_dma_complete 1 ∈
      pre.filter is_main_action)).1
  have n1 : Action.read_buffers ∉ pre := by
    intro hm
    have : Action.read_buffers ∈ pre.filter is_main_action := List.mem_filter.2 ⟨hm, rfl⟩
    rw [hpre] at this
    simp [setup_trace, not_mem_polls Action.read_buffers n (by simp)] at this
  have n2 : Action.read_buffers ∉ post := by
    intro hm
    exact hpost (List.mem_filter.2 ⟨hm, rfl⟩)
  exact ⟨⟨1, by decide, m1⟩, n1, n2, main_step_pc_L148 bsp, main_step_destination_data bsp,
    main_step_reads_destination_only_at_L148 bsp⟩

/-- Witness of C4: the handler runs while `main` waits; `main` then leaves the
loop and compares. -/
theorem destination_accessed_only_after_completion_witness :
    (exec 0 init [Event.main, Event.main, Event.main, Event.main, Event.main, Event.main,
        Event.main, Event.irq, Event.main, Event.main]).trace =
      [Action.cybsp_init, Action.cy_retarget_io_init, Action.NVIC_SetPriority,
        Action.NVIC_EnableIRQ, Action.XMC_DMA_CH_Enable, Action.read_dma_complete 0,
        Action.write_dma_complete 1, Action.XMC_DMA_CH_ClearEventStatus,
        Action.read_dma_complete 1] ++ Action.read_buffers :: [] ∧
    ∃ v, v ≠ 0 ∧ Action.read_dma_complete v ∈
      [Action.cybsp_init, Action.cy_retarget_io_init, Action.NVIC_SetPriority,
        Action.NVIC_EnableIRQ, Action.XMC_DMA_CH_Enable, Action.read_dma_complete 0,
        Action.write_dma_complete 1, Action.XMC_DMA_CH_ClearEventStatus,
        Action.read_dma_complete 1] :=
  ⟨by decide,
   (destination_accessed_only_after_completion 0
    [Event.main, Event.main, Event.main, Event.main, Event.main, Event.main,
      Event.main, Event.irq, Event.main, Event.main]
    [Action.cybsp_init, Action.cy_retarget_io_init, Action.NVIC_SetPriority,
      Action.NVIC_EnableIRQ, Action.XMC_DMA_CH_Enable, Action.read_dma_complete 0,
      Action.write_dma_complete 1, Action.XMC_DMA_CH_ClearEventStatus,
      Action.read_dma_complete 1] [] (by decide)).1⟩

/-! ## The completion flag -/

/-- C5: `dma_complete` starts at 0; no step of `main` and no store of the DMA
engine changes it; the handler writes 1 to it, and every write recorded in a
reachable trace wrote 1; in a reachable state it is 0 or 1, and it is 1 exactly
when the handler has run; once it is 1 it is 1 after any further schedule. -/
theorem dma_complete_monotone (bsp : Nat) (es fs : List Event) :
    init.dma_complete = 0 ∧
    (∀ s, (main_step bsp s).dma_complete = s.dma_complete) ∧
    (∀ i v s, (dma_store i v s).dma_complete = s.dma_complete) ∧
    (∀ s, (GPDMA0_INTERRUPT_HANDLER s).dma_complete = 1) ∧
    (∀ v, Action.write_dma_complete v ∈ (exec bsp init es).trace → v = 1) ∧
    ((exec bsp init es).dma_complete = 0 ∨ (exec bsp init es).dma_complete = 1) ∧
    ((exec bsp init es).dma_complete = 1 ↔ Event.irq ∈ es) ∧
    ((exec bsp init es).dma_complete = 1 →
      (exec bsp (exec bsp init es) fs).dma_complete = 1) := by
  refine ⟨rfl, main_step_dma_complete bsp, fun _ _ _ => rfl, fun _ => rfl,
    writes_one_exec bsp es, (Inv_exec bsp es).2.2.2.1, exec_dma_complete_iff bsp es init rfl,
    exec_dma_complete_of_one bsp fs _⟩

/-- Witness of C5: the handler runs once after the channel is enabled, and the
flag is still 1 after two more runs of the handler and two steps of `main`. -/
theorem dma_complete_monotone_witness :
    (exec 0 init [Event.main, Event.main, Event.main, Event.main, Event.main, Event.main,
      Event.irq]).dma_complete = 1 ∧
    (exec 0 (exec 0 init [Event.main, Event.main, Event.main, Event.main, Event.main,
      Event.main, Event.irq]) [Event.irq, Event.main, Event.irq, Event.main]).dma_complete
      = 1 :=
  ⟨by decide,
   (dma_complete_monotone 0 [Event.main, Event.main, Event.main, Event.main, Event.main,
      Event.main, Event.irq] [Event.irq, Event.main, Event.irq, Event.main]).2.2.2.2.2.2.2
      (by decide)⟩

/-! ## From the comparison onwards -/

theorem verify_phase_main_step (bsp : Nat) (s0 : State) (k : Nat) (s : State)
    (h : verify_phase s0 k s) : verify_phase s0 (k + 1) (main_step bsp s) := by
  obtain ⟨pc, result, src, dst, flag, led, irqen, chen, ev, trace⟩ := s
  match k with
  | 0 =>
    obtain ⟨hpc, hl, hsrc, hdst, ht⟩ := h
    simp only at hpc hl hsrc hdst
    subst hpc hsrc hdst
    simp only [main_trace] at ht
    by_cases hc : memcmp (array_bytes s0.source_data) (array_bytes s0.destination_data)
        sizeof_source_data = 0
    · simp [verify_phase, main_step, hc, hl, main_trace, ht, is_main_action]
    · simp [verify_phase, main_step, hc, hl, main_trace, ht, is_main_action]
  | 1 =>
    obtain ⟨hpc, hl, ht⟩ := h
    simp only at hpc hl
    simp only [main_trace] at ht
    by_cases hc : memcmp (array_bytes s0.source_data) (array_bytes s0.destination_data)
        sizeof_source_data = 0
    · simp only [hc, ne_eq, not_true_eq_false, if_false] at hpc
      subst hpc
      simp [verify_phase, main_step, hc, main_trace, ht, is_main_action]
    · simp only [hc, ne_eq, not_false_eq_true, if_true] at hpc
      subst hpc
      simp [verify_phase, main_step, CY_ASSERT, hc, hl, main_trace, ht, is_main_action]
  | j + 2 =>
    by_cases hc : memcmp (array_bytes s0.source_data) (array_bytes s0.destination_data)
        sizeof_source_data = 0
    · simp only [verify_phase, hc, ne_eq, not_true_eq_false, if_false] at h ⊢
      obtain ⟨hpc, hl, ht⟩ := h
      have hpc2 : pc = _ := hpc
      subst hpc2
      exact ⟨rfl, hl, ht⟩
    · simp only [verify_phase, hc, ne_eq, not_false_eq_true, if_true] at h ⊢
      obtain ⟨hpc, hl, ht⟩ := h
      have hpc2 : pc = _ := hpc
      subst hpc2
      exact ⟨rfl, hl, ht⟩

theorem verify_phase_handler (s0 : State) (k : Nat) (s : State)
    (h : verify_phase s0 k s) : verify_phase s0 k (GPDMA0_INTERRUPT_HANDLER s) := by
  have ht := main_trace_handler s
  match k with
  | 0 => exact ⟨h.1, h.2.1, h.2.2.1, h.2.2.2.1, by rw [ht]; exact h.2.2.2.2⟩
  | 1 => exact ⟨h.1, h.2.1, by rw [ht]; exact h.2.2⟩
  | j + 2 =>
    by_cases hc : memcmp (array_bytes s0.source_data) (array_bytes s0.destination_data)
        sizeof_source_data = 0
    · simp only [verify_phase, hc, ne_eq, not_true_eq_false, if_false] at h ⊢
      exact ⟨h.1, h.2.1, by rw [ht]; exact h.2.2⟩
    · simp only [verify_phase, hc, ne_eq, not_false_eq_true, if_true] at h ⊢
      exact ⟨h.1, h.2.1, by rw [ht]; exact h.2.2⟩

theorem verify_phase_dma_store (s0 : State) (k i v : Nat) (s : State)
    (h : verify_phase s0 (k + 1) s) : verify_phase s0 (k + 1) (dma_store i v s) := by
  match k with
  | 0 => exact h
  | j + 1 => exact h

/-- Once `main` has run the comparison on state `s0`, it is in the phase given
by the number of steps it took since, whatever else happened in between. -/
theorem verify_phase_exec (bsp : Nat) (s0 : State) (fs : List Event)
    (hpc : s0.pc = PC.L148) :
    verify_phase s0 (fs.count Event.main + 1) (exec bsp s0 (Event.main :: fs)) := by
  have h1 : verify_phase s0 1 (main_step bsp s0) :=
    verify_phase_main_step bsp s0 0 s0 ⟨hpc, rfl, rfl, rfl, rfl⟩
  have := exec_phase bsp (fun k s => verify_phase s0 (k + 1) s) (fun _ => True)
    (fun _ k s h => verify_phase_main_step bsp s0 (k + 1) s h)
    (fun _ k s h => verify_phase_handler s0 (k + 1) s h)
    (fun i v _ k s h => verify_phase_dma_store s0 k i v s h) fs (main_step bsp s0) 0
    (fun _ _ => trivial) h1
  simpa [exec_cons, step] using this

theorem Inv_L148 (bsp : Nat) (s : State) (h : Inv bsp s) (hpc : s.pc = PC.L148) :
    s.led = false ∧ bsp = CY_RSLT_SUCCESS ∧
    ∃ n, main_trace s = setup_trace ++ polls n ++ [Action.read_dma_complete 1] := by
  obtain ⟨_, _, _, _, h5⟩ := h
  rw [hpc] at h5
  obtain ⟨n, ht, hl, hb⟩ := h5
  exact ⟨hl, hb, n, ht⟩

theorem main_step_led (bsp : Nat) (s : State) (h : s.pc ≠ PC.L159) :
    (main_step bsp s).led = s.led := by
  obtain ⟨pc, result, src, dst, flag, led, irqen, chen, ev, trace⟩ := s
  cases pc
  case L159 => exact absurd rfl h
  all_goals simp only [main_step] <;> (try split) <;> rfl

theorem main_step_trace_led (bsp : Nat) (s : State) (h : s.pc ≠ PC.L159) :
    (main_step bsp s).trace.count Action.XMC_GPIO_SetOutputHigh =
      s.trace.count Action.XMC_GPIO_SetOutputHigh := by
  obtain ⟨pc, result, src, dst, flag, led, irqen, chen, ev, trace⟩ := s
  cases pc
  case L159 => exact absurd rfl h
  case L139 => by_cases hf : flag = 0 <;> simp [main_step, hf]
  case L119 => by_cases hr : result = CY_RSLT_SUCCESS <;> simp [main_step, hr]
  case L148 =>
    by_cases hc : memcmp (array_bytes src) (array_bytes dst) sizeof_source_data = 0 <;>
      simp [main_step, hc]
  all_goals simp [main_step]

/-- Every content of `destination_data` (10 words of 32 bits) is the content of
some reachable state in which `main` stands at the comparison. -/
theorem comparison_reachable_with_any_content (d : List Nat) (hlen : d.length = DATA_LENGTH)
    (hw : ∀ w, w ∈ d → w < 2 ^ 32) :
    (exec CY_RSLT_SUCCESS init (run_to_comparison d)).pc = PC.L148 ∧
    (exec CY_RSLT_SUCCESS init (run_to_comparison d)).destination_data = d := by
  have he : exec CY_RSLT_SUCCESS init (List.replicate 6 Event.main) = waiting_state 0 := rfl
  rw [run_to_comparison, List.append_assoc, exec_append, he]
  match d, hlen, hw with
  | [a0, a1, a2, a3, a4, a5, a6, a7, a8, a9], _, hw =>
    have h0 := Nat.mod_eq_of_lt (hw a0 (by simp))
    have h1 := Nat.mod_eq_of_lt (hw a1 (by simp))
    have h2 := Nat.mod_eq_of_lt (hw a2 (by simp))
    have h3 := Nat.mod_eq_of_lt (hw a3 (by simp))
    have h4 := Nat.mod_eq_of_lt (hw a4 (by simp))
    have h5 := Nat.mod_eq_of_lt (hw a5 (by simp))
    have h6 := Nat.mod_eq_of_lt (hw a6 (by simp))
    have h7 := Nat.mod_eq_of_lt (hw a7 (by simp))
    have h8 := Nat.mod_eq_of_lt (hw a8 (by simp))
    have h9 := Nat.mod_eq_of_lt (hw a9 (by simp))
    simp only [Nat.reducePow] at h0 h1 h2 h3 h4 h5 h6 h7 h8 h9
    simp [exec, dma_writes, List.range, List.range.loop, step, dma_store, main_step,
      GPDMA0_INTERRUPT_HANDLER, XMC_DMA_CH_ClearEventStatus, assign_dma_complete,
      waiting_state, destination_data_init, DATA_LENGTH,
      h0, h1, h2, h3, h4, h5, h6, h7, h8, h9]

/-! ## Verification and report -/

/-- C1: take any reachable state in which `main` has left the wait loop and
stands at the comparison, with whatever content the DMA engine has given
`destination_data`.  Once `main` has run the comparison and one more step, the
LED output is high, and `XMC_GPIO_SetOutputHigh` is in the trace, if and only if
`destination_data[i] == source_data[i]` for every `i` in 0..9 in that state.
The LED was low until then; no step of `main` other than line 159 changes the
LED or calls `XMC_GPIO_SetOutputHigh`, and the handler leaves the LED alone. -/
theorem led_high_iff_buffers_equal (bsp : Nat) (es fs : List Event)
    (hpc : (exec bsp init es).pc = PC.L148) (hcount : 1 ≤ fs.count Event.main) :
    ((exec bsp init (es ++ Event.main :: fs)).led = true ↔
      ∀ i, i < DATA_LENGTH →
        (exec bsp init es).destination_data[i]? = (exec bsp init es).source_data[i]?) ∧
    (Action.XMC_GPIO_SetOutputHigh ∈ (exec bsp init (es ++ Event.main :: fs)).trace ↔
      ∀ i, i < DATA_LENGTH →
        (exec bsp init es).destination_data[i]? = (exec bsp init es).source_data[i]?) ∧
    (exec bsp init es).led = false ∧
    Action.XMC_GPIO_SetOutputHigh ∉ (exec bsp init es).trace ∧
    (∀ b s, s.pc ≠ PC.L159 → (main_step b s).led = s.led ∧
      (main_step b s).trace.count Action.XMC_GPIO_SetOutputHigh =
        s.trace.count Action.XMC_GPIO_SetOutputHigh) ∧
    (∀ s, (GPDMA0_INTERRUPT_HANDLER s).led = s.led ∧
      (GPDMA0_INTERRUPT_HANDLER s).trace.count Action.XMC_GPIO_SetOutputHigh =
        s.trace.count Action.XMC_GPIO_SetOutputHigh) := by
  have hinv := Inv_exec bsp es
  obtain ⟨hled, _, n, ht⟩ := Inv_L148 bsp _ hinv hpc
  obtain ⟨hsrc, hlen, hw, _, _⟩ := hinv
  have hph := verify_phase_exec bsp (exec bsp init es) fs hpc
  rw [← exec_append] at hph
  obtain ⟨j, hj⟩ : ∃ j, fs.count Event.main = j + 1 := ⟨fs.count Event.main - 1, by omega⟩
  rw [hj] at hph
  have hcmp := memcmp_arrays_eq_zero_iff (exec bsp init es).source_data
    (exec bsp init es).destination_data (by rw [hsrc]; rfl) hlen
    (by rw [hsrc]; decide) hw
  have hsym : (∀ i, i < DATA_LENGTH →
        (exec bsp init es).destination_data[i]? = (exec bsp init es).source_data[i]?) ↔
      memcmp (array_bytes (exec bsp init es).source_data)
        (array_bytes (exec bsp init es).destination_data) sizeof_source_data = 0 := by
    rw [hcmp]
    exact ⟨fun h i hi => (h i hi).symm, fun h i hi => (h i hi).symm⟩
  have hnp : Action.XMC_GPIO_SetOutputHigh ∉ polls n := not_mem_polls _ n (by simp)
  have hbefore : Action.XMC_GPIO_SetOutputHigh ∉ (exec bsp init es).trace := by
    rw [← mem_main_trace _ Action.XMC_GPIO_SetOutputHigh rfl, ht]
    simp [setup_trace, hnp]
  refine ⟨?_, ?_, hled, hbefore, fun b s h => ⟨main_step_led b s h, main_step_trace_led b s h⟩,
    fun s => ⟨rfl, by simp [GPDMA0_INTERRUPT_HANDLER, XMC_DMA_CH_ClearEventStatus,
      assign_dma_complete]⟩⟩
  · rw [hsym]
    by_cases hc : memcmp (array_bytes (exec bsp init es).source_data)
        (array_bytes (exec bsp init es).destination_data) sizeof_source_data = 0
    · simp only [verify_phase, hc, ne_eq, not_true_eq_false, if_false] at hph
      simp [hc, hph.2.1]
    · simp only [verify_phase, hc, ne_eq, not_false_eq_true, if_true] at hph
      simp [hc, hph.2.1, hled]
  · rw [hsym, ← mem_main_trace _ Action.XMC_GPIO_SetOutputHigh rfl]
    by_cases hc : memcmp (array_bytes (exec bsp init es).source_data)
        (array_bytes (exec bsp init es).destination_data) sizeof_source_data = 0
    · simp only [verify_phase, hc, ne_eq, not_true_eq_false, if_false] at hph
      simp [hc, hph.2.2]
    · simp only [verify_phase, hc, ne_eq, not_false_eq_true, if_true] at hph
      simp [hc, hph.2.2, ht, setup_trace, hnp]

/-- Witness of C1: the DMA engine copies the source faithfully; `main` compares
and takes one more step. -/
theorem led_high_iff_buffers_equal_witness :
    (exec 0 init (run_to_comparison source_data_init)).pc = PC.L148 ∧
    1 ≤ [Event.main].count Event.main ∧
    (exec 0 init (run_to_comparison source_data_init ++ Event.main :: [Event.main])).led
      = true :=
  ⟨by decide, by decide,
   (led_high_iff_buffers_equal 0 (run_to_comparison source_data_init) [Event.main]
      (by decide) (by decide)).1.2 (by decide)⟩

/-- C2: take any reachable state in which `main` stands at the comparison and
`destination_data` differs from `source_data` in at least one of the 10
elements.  Once `main` has run the comparison, whatever happens afterwards the
LED stays low and `XMC_GPIO_SetOutputHigh` is never called; `main` stands at
the assertion of line 154, and from its next step on it is halted, having done
nothing after the failed assertion. -/
theorem mismatch_halts_with_led_low (bsp : Nat) (es fs : List Event)
    (hpc : (exec bsp init es).pc = PC.L148)
    (hmis : ∃ i, i < DATA_LENGTH ∧
      (exec bsp init es).destination_data[i]? ≠ (exec bsp init es).source_data[i]?) :
    (exec bsp init (es ++ Event.main :: fs)).led = false ∧
    Action.XMC_GPIO_SetOutputHigh ∉ (exec bsp init (es ++ Event.main :: fs)).trace ∧
    (fs.count Event.main = 0 →
      (exec bsp init (es ++ Event.main :: fs)).pc = PC.L154 ∧
      main_trace (exec bsp init (es ++ Event.main :: fs)) =
        main_trace (exec bsp init es) ++ [Action.read_buffers]) ∧
    (1 ≤ fs.count Event.main →
      (exec bsp init (es ++ Event.main :: fs)).pc = PC.halted ∧
      main_trace (exec bsp init (es ++ Event.main :: fs)) =
        main_trace (exec bsp init es) ++ [Action.read_buffers, Action.CY_ASSERT_failed]) := by
  have hinv := Inv_exec bsp es
  obtain ⟨hled, _, n, ht⟩ := Inv_L148 bsp _ hinv hpc
  obtain ⟨hsrc, hlen, hw, _, _⟩ := hinv
  have hph := verify_phase_exec bsp (exec bsp init es) fs hpc
  rw [← exec_append] at hph
  have hcmp := memcmp_arrays_eq_zero_iff (exec bsp init es).source_data
    (exec bsp init es).destination_data (by rw [hsrc]; rfl) hlen
    (by rw [hsrc]; decide) hw
  have hc : ¬ memcmp (array_bytes (exec bsp init es).source_data)
      (array_bytes (exec bsp init es).destination_data) sizeof_source_data = 0 := by
    rw [hcmp]
    intro hall
    obtain ⟨i, hi, hne⟩ := hmis
    exact hne (hall i hi).symm
  have hnp : Action.XMC_GPIO_SetOutputHigh ∉ polls n := not_mem_polls _ n (by simp)
  rcases Nat.eq_zero_or_pos (fs.count Event.main) with h0 | hpos
  · rw [h0] at hph
    simp only [verify_phase, hc, ne_eq, not_false_eq_true, if_true, zero_add] at hph
    refine ⟨by rw [hph.2.1, hled], ?_, fun _ => ⟨hph.1, hph.2.2⟩, fun h1 => by omega⟩
    rw [← mem_main_trace _ Action.XMC_GPIO_SetOutputHigh rfl, hph.2.2, ht]
    simp [setup_trace, hnp]
  · obtain ⟨j, hj⟩ : ∃ j, fs.count Event.main = j + 1 := ⟨fs.count Event.main - 1, by omega⟩
    rw [hj] at hph
    simp only [verify_phase, hc, ne_eq, not_false_eq_true, if_true] at hph
    refine ⟨by rw [hph.2.1, hled], ?_, fun h0 => by omega, fun _ => ⟨hph.1, hph.2.2⟩⟩
    rw [← mem_main_trace _ Action.XMC_GPIO_SetOutputHigh rfl, hph.2.2, ht]
    simp [setup_trace, hnp]

/-- Witness of C2: source 0..9 against a destination forced to
0, 1, 2, 3, 4, 5, 6, 7, 8, 99; after the comparison `main` steps three more
times and the handler runs again. -/
theorem mismatch_halts_with_led_low_witness :
    (exec 0 init (run_to_comparison [0, 1, 2, 3, 4, 5, 6, 7, 8, 99])).source_data
      = [0, 1, 2, 3, 4, 5, 6, 7, 8, 9] ∧
    (exec 0 init (run_to_comparison [0, 1, 2, 3, 4, 5, 6, 7, 8, 99])).destination_data
      = [0, 1, 2, 3, 4, 5, 6, 7, 8, 99] ∧
    (exec 0 init (run_to_comparison [0, 1, 2, 3, 4, 5, 6, 7, 8, 99] ++
      Event.main :: [Event.main, Event.irq, Event.main, Event.main])).led = false ∧
    (exec 0 init (run_to_comparison [0, 1, 2, 3, 4, 5, 6, 7, 8, 99] ++
      Event.main :: [Event.main, Event.irq, Event.main, Event.main])).pc = PC.halted :=
  ⟨by decide, by decide,
   (mismatch_halts_with_led_low 0 (run_to_comparison [0, 1, 2, 3, 4, 5, 6, 7, 8, 99])
      [Event.main, Event.irq, Event.main, Event.main] (by decide)
      ⟨9, by decide, by decide⟩).1,
   ((mismatch_halts_with_led_low 0 (run_to_comparison [0, 1, 2, 3, 4, 5, 6, 7, 8, 99])
      [Event.main, Event.irq, Event.main, Event.main] (by decide)
      ⟨9, by decide, by decide⟩).2.2.2 (by decide)).1⟩

/-! ## Failure of the board initialisation -/

theorem bits_follow_trace_main_step (bsp : Nat) (s : State) (h : bits_follow_trace s) :
    bits_follow_trace (main_step bsp s) := by
  obtain ⟨pc, result, src, dst, flag, led, irqen, chen, ev, trace⟩ := s
  obtain ⟨h1, h2, h3⟩ := h
  simp only at h1 h2 h3
  cases pc
  case L139 => by_cases hf : flag = 0 <;> simp [main_step, hf, bits_follow_trace, h1, h2, h3]
  case L119 =>
    by_cases hr : result = CY_RSLT_SUCCESS <;>
      simp [main_step, hr, bits_follow_trace, h1, h2, h3]
  case L148 =>
    by_cases hc : memcmp (array_bytes src) (array_bytes dst) sizeof_source_data = 0 <;>
      simp [main_step, hc, bits_follow_trace, h1, h2, h3]
  all_goals simp [main_step, bits_follow_trace, h1, h2, h3]

theorem bits_follow_trace_exec (bsp : Nat) (es : List Event) :
    bits_follow_trace (exec bsp init es) := by
  apply exec_invariant bsp bits_follow_trace (bits_follow_trace_main_step bsp)
  · intro s h
    obtain ⟨h1, h2, h3⟩ := h
    simp [bits_follow_trace, GPDMA0_INTERRUPT_HANDLER, XMC_DMA_CH_ClearEventStatus,
      assign_dma_complete, h1, h2, h3]
  · intro i v s h
    exact h
  · simp [bits_follow_trace, init]

theorem fail_phase_main_step (bsp : Nat) (hb : bsp ≠ CY_RSLT_SUCCESS) (k : Nat) (s : State)
    (h : fail_phase bsp k s) : fail_phase bsp (k + 1) (main_step bsp s) := by
  obtain ⟨pc, result, src, dst, flag, led, irqen, chen, ev, trace⟩ := s
  match k with
  | 0 =>
    have hpc : pc = PC.L118 := h
    subst hpc
    exact ⟨rfl, rfl⟩
  | 1 =>
    have hpc : pc = PC.L119 := h.1
    have hr : result = bsp := h.2
    subst hpc hr
    simp [fail_phase, main_step, hb]
  | 2 =>
    have hpc : pc = PC.L121 := h
    subst hpc
    simp [fail_phase, main_step, CY_ASSERT]
  | j + 3 =>
    have hpc : pc = PC.halted := h
    subst hpc
    simp [fail_phase, main_step]

theorem fail_phase_exec (bsp : Nat) (hb : bsp ≠ CY_RSLT_SUCCESS) (es : List Event) :
    fail_phase bsp (es.count Event.main) (exec bsp init es) := by
  have := exec_phase bsp (fail_phase bsp) (fun _ => True)
    (fun _ k s h => fail_phase_main_step bsp hb k s h)
    (fun _ k s h => by
      match k with
      | 0 => exact h
      | 1 => exact h
      | 2 => exact h
      | j + 3 => exact h)
    (fun i v _ k s h => by
      match k with
      | 0 => exact h
      | 1 => exact h
      | 2 => exact h
      | j + 3 => exact h) es init 0 (fun _ _ => trivial) rfl
  simpa using this

/-- What `main` has done in a reachable state when the board initialisation
failed: nothing but the call and, once halted, the failed assertion. -/
theorem main_trace_of_failure (bsp : Nat) (hb : bsp ≠ CY_RSLT_SUCCESS) (s : State)
    (h : Inv bsp s) :
    main_trace s = [] ∨ main_trace s = [Action.cybsp_init] ∨
      (s.pc = PC.halted ∧ main_trace s = [Action.cybsp_init, Action.CY_ASSERT_failed]) := by
  obtain ⟨_, _, _, _, h5⟩ := h
  cases hpc : s.pc <;> rw [hpc] at h5 <;> simp only at h5
  case L118 => exact Or.inl h5.1
  case L119 => exact Or.inr (Or.inl h5.1)
  case L121 => exact Or.inr (Or.inl h5.1)
  case halted =>
    rcases h5 with ⟨ht, _⟩ | ⟨n, _, _, hbs⟩
    · exact Or.inr (Or.inr ⟨rfl, ht⟩)
    · exact absurd hbs hb
  case L125 => exact absurd h5.2.2 hb
  case L132 => exact absurd h5.2.2 hb
  case L133 => exact absurd h5.2.2 hb
  case L136 => exact absurd h5.2.2 hb
  all_goals
    obtain ⟨n, _, _, hbs⟩ := h5
    exact absurd hbs hb

/-- C3: when `cybsp_init()` returns anything but `CY_RSLT_SUCCESS`, then in
every execution `main` never calls `cy_retarget_io_init`, `NVIC_SetPriority`,
`NVIC_EnableIRQ` or `XMC_DMA_CH_Enable`, never reads `dma_complete` or the
buffers and never sets the LED; the interrupt and the channel stay disabled
and the LED low; and after its third step (call, test, assertion) `main` is
halted, having done nothing between the call and the failed assertion. -/
theorem bootstrap_failure_halts (bsp : Nat) (hb : bsp ≠ CY_RSLT_SUCCESS) (es : List Event) :
    Action.cy_retarget_io_init ∉ (exec bsp init es).trace ∧
    Action.NVIC_SetPriority ∉ (exec bsp init es).trace ∧
    Action.NVIC_EnableIRQ ∉ (exec bsp init es).trace ∧
    Action.XMC_DMA_CH_Enable ∉ (exec bsp init es).trace ∧
    (∀ v, Action.read_dma_complete v ∉ (exec bsp init es).trace) ∧
    Action.read_buffers ∉ (exec bsp init es).trace ∧
    Action.XMC_GPIO_SetOutputHigh ∉ (exec bsp init es).trace ∧
    (exec bsp init es).irq_enabled = false ∧
    (exec bsp init es).ch_enabled = false ∧
    (exec bsp init es).led = false ∧
    (3 ≤ es.count Event.main →
      (exec bsp init es).pc = PC.halted ∧
      main_trace (exec bsp init es) = [Action.cybsp_init, Action.CY_ASSERT_failed]) := by
  have hinv := Inv_exec bsp es
  have hbits := bits_follow_trace_exec bsp es
  have htr := main_trace_of_failure bsp hb _ hinv
  have key : ∀ a, is_main_action a = true → a ≠ Action.cybsp_init →
      a ≠ Action.CY_ASSERT_failed → a ∉ (exec bsp init es).trace := by
    intro a ha h1 h2
    rw [← mem_main_trace _ a ha]
    rcases htr with ht | ht | ⟨_, ht⟩ <;> rw [ht] <;> simp [h1, h2]
  have k3 := key Action.NVIC_EnableIRQ rfl (by simp) (by simp)
  have k4 := key Action.XMC_DMA_CH_Enable rfl (by simp) (by simp)
  have k7 := key Action.XMC_GPIO_SetOutputHigh rfl (by simp) (by simp)
  refine ⟨key _ rfl (by simp) (by simp), key _ rfl (by simp) (by simp), k3, k4,
    fun v => key _ rfl (by simp) (by simp), key _ rfl (by simp) (by simp), k7, ?_, ?_, ?_, ?_⟩
  · cases hq : (exec bsp init es).irq_enabled
    · rfl
    · exact absurd (hbits.1.1 hq) k3
  · cases hq : (exec bsp init es).ch_enabled
    · rfl
    · exact absurd (hbits.2.1.1 hq) k4
  · cases hq : (exec bsp init es).led
    · rfl
    · exact absurd (hbits.2.2.1 hq) k7
  · intro hcount
    have hph := fail_phase_exec bsp hb es
    obtain ⟨j, hj⟩ : ∃ j, es.count Event.main = j + 3 := ⟨es.count Event.main - 3, by omega⟩
    rw [hj] at hph
    have hpc : (exec bsp init es).pc = PC.halted := hph
    refine ⟨hpc, ?_⟩
    obtain ⟨_, _, _, _, h5⟩ := hinv
    rw [hpc] at h5
    rcases h5 with ⟨ht, _⟩ | ⟨n, _, _, hbs⟩
    · exact ht
    · exact absurd hbs hb

/-- Witness of C3: `cybsp_init()` returns 1; the handler and the DMA engine run
in between the steps of `main`. -/
theorem bootstrap_failure_halts_witness :
    (exec 1 init [Event.main, Event.irq, Event.main, Event.dma 0 5, Event.main,
      Event.main, Event.main]).pc = PC.halted ∧
    (exec 1 init [Event.main, Event.irq, Event.main, Event.dma 0 5, Event.main,
      Event.main, Event.main]).led = false :=
  ⟨((bootstrap_failure_halts 1 (by decide) [Event.main, Event.irq, Event.main,
      Event.dma 0 5, Event.main, Event.main, Event.main]).2.2.2.2.2.2.2.2.2.2 (by decide)).1,
   (bootstrap_failure_halts 1 (by decide) [Event.main, Event.irq, Event.main,
      Event.dma 0 5, Event.main, Event.main, Event.main]).2.2.2.2.2.2.2.2.2.1⟩

/-! ## The wait loop -/

theorem not_completed_main_step (bsp : Nat) (s : State) (h : not_completed s) :
    not_completed (main_step bsp s) := by
  obtain ⟨pc, result, src, dst, flag, led, irqen, chen, ev, trace⟩ := s
  obtain ⟨h1, h2, h3, h4, p1, p2, p3, p4⟩ := h
  simp only at h1 h2 h3 h4 p1 p2 p3 p4
  subst h1 h2
  cases pc
  case L148 => exact absurd rfl p1
  case L154 => exact absurd rfl p2
  case L159 => exact absurd rfl p3
  case L165 => exact absurd rfl p4
  case L119 =>
    by_cases hr : result = CY_RSLT_SUCCESS <;> simp [main_step, hr, not_completed, h3, h4]
  all_goals simp [main_step, CY_ASSERT, not_completed, h3, h4]

theorem not_completed_exec (bsp : Nat) (es : List Event) (hirq : Event.irq ∉ es) :
    not_completed (exec bsp init es) := by
  have := exec_phase bsp (fun _ => not_completed) (fun e => e ≠ Event.irq)
    (fun _ _ s h => not_completed_main_step bsp s h)
    (fun hf => absurd rfl hf)
    (fun i v _ _ s h => h) es init 0
    (fun e he hq => hirq (hq ▸ he))
    (by simp [not_completed, init])
  exact this

theorem wait_phase_main_step (k : Nat) (s : State) (h : wait_phase k s) :
    wait_phase (k + 1) (main_step CY_RSLT_SUCCESS s) := by
  obtain ⟨pc, result, src, dst, flag, led, irqen, chen, ev, trace⟩ := s
  match k with
  | 0 =>
    obtain ⟨hpc, hf, hl, ht⟩ := h
    simp only at hpc hf hl ht
    subst hpc hf hl ht
    simp [wait_phase, main_step]
  | 1 =>
    obtain ⟨hpc, hr, hf, hl, ht⟩ := h
    simp only at hpc hr hf hl ht
    subst hpc hr hf hl ht
    simp [wait_phase, main_step]
  | 2 =>
    obtain ⟨hpc, hf, hl, ht⟩ := h
    simp only at hpc hf hl ht
    subst hpc hf hl ht
    simp [wait_phase, main_step]
  | 3 =>
    obtain ⟨hpc, hf, hl, ht⟩ := h
    simp only at hpc hf hl ht
    subst hpc hf hl ht
    simp [wait_phase, main_step]
  | 4 =>
    obtain ⟨hpc, hf, hl, ht⟩ := h
    simp only at hpc hf hl ht
    subst hpc hf hl ht
    simp [wait_phase, main_step]
  | 5 =>
    obtain ⟨hpc, hf, hl, ht⟩ := h
    simp only at hpc hf hl ht
    subst hpc hf hl ht
    simp [wait_phase, main_step, setup_trace, polls]
  | n + 6 =>
    obtain ⟨hpc, hf, hl, ht⟩ := h
    simp only at hpc hf hl ht
    subst hpc hf hl ht
    simp [wait_phase, main_step, polls_succ]

theorem wait_phase_dma_store (k i v : Nat) (s : State) (h : wait_phase k s) :
    wait_phase k (dma_store i v s) := by
  match k with
  | 0 => exact h
  | 1 => exact h
  | 2 => exact h
  | 3 => exact h
  | 4 => exact h
  | 5 => exact h
  | n + 6 => exact h

theorem wait_phase_exec (es : List Event) (hirq : Event.irq ∉ es) :
    wait_phase (es.count Event.main) (exec CY_RSLT_SUCCESS init es) := by
  have := exec_phase CY_RSLT_SUCCESS wait_phase (fun e => e ≠ Event.irq)
    (fun _ k s h => wait_phase_main_step k s h)
    (fun hf => absurd rfl hf)
    (fun i v _ k s h => wait_phase_dma_store k i v s h) es init 0
    (fun e he hq => hirq (hq ▸ he))
    ⟨rfl, rfl, rfl, rfl⟩
  simpa using this

/-- C9: as long as the handler has not run, after any schedule: the flag is 0,
the LED is low, `XMC_GPIO_SetOutputHigh` has not been called, the buffers have
not been read and `main` has not come past the wait loop.  And when the board
initialisation succeeded, for every `n`: after the six steps up to the loop and
`n` more, `main` is still in the wait loop, not halted, and has done nothing but
the set-up and `n` polls that read 0. -/
theorem wait_is_unbounded (bsp : Nat) (es : List Event) (hirq : Event.irq ∉ es) :
    (exec bsp init es).dma_complete = 0 ∧
    (exec bsp init es).led = false ∧
    Action.XMC_GPIO_SetOutputHigh ∉ (exec bsp init es).trace ∧
    Action.read_buffers ∉ (exec bsp init es).trace ∧
    (exec bsp init es).pc ≠ PC.L148 ∧ (exec bsp init es).pc ≠ PC.L154 ∧
    (exec bsp init es).pc ≠ PC.L159 ∧ (exec bsp init es).pc ≠ PC.L165 ∧
    (bsp = CY_RSLT_SUCCESS → ∀ n, es.count Event.main = 6 + n →
      (exec bsp init es).pc = PC.L139 ∧ (exec bsp init es).pc ≠ PC.halted ∧
      (exec bsp init es).trace =
        [Action.cybsp_init, Action.cy_retarget_io_init, Action.NVIC_SetPriority,
          Action.NVIC_EnableIRQ, Action.XMC_DMA_CH_Enable] ++
        List.replicate n (Action.read_dma_complete 0)) := by
  obtain ⟨h1, h2, h3, h4, p1, p2, p3, p4⟩ := not_completed_exec bsp es hirq
  refine ⟨h1, h2, h4, h3, p1, p2, p3, p4, ?_⟩
  intro hb n hn
  subst hb
  have hph := wait_phase_exec es hirq
  rw [hn, show 6 + n = n + 6 by omega] at hph
  obtain ⟨hpc, _, _, ht⟩ := hph
  exact ⟨hpc, by rw [hpc]; decide, ht⟩

/-- Witness of C9: the DMA engine stores a word, `main` takes its six steps up to
the loop and polls three times; the handler never runs. -/
theorem wait_is_unbounded_witness :
    Event.irq ∉ [Event.main, Event.main, Event.main, Event.main, Event.main, Event.main,
      Event.dma 3 7, Event.main, Event.main, Event.main] ∧
    (exec 0 init [Event.main, Event.main, Event.main, Event.main, Event.main, Event.main,
      Event.dma 3 7, Event.main, Event.main, Event.main]).pc = PC.L139 ∧
    (exec 0 init [Event.main, Event.main, Event.main, Event.main, Event.main, Event.main,
      Event.dma 3 7, Event.main, Event.main, Event.main]).led = false :=
  ⟨by decide,
   ((wait_is_unbounded 0 [Event.main, Event.main, Event.main, Event.main, Event.main,
      Event.main, Event.dma 3 7, Event.main, Event.main, Event.main] (by decide)).2.2.2.2.2.2.2.2
      rfl 3 (by decide)).1,
   (wait_is_unbounded 0 [Event.main, Event.main, Event.main, Event.main, Event.main,
      Event.main, Event.dma 3 7, Event.main, Event.main, Event.main] (by decide)).2.1⟩

/-! ## The success scenario -/

theorem exec_to_waiting_state (k : Nat) :
    exec CY_RSLT_SUCCESS init (List.replicate 6 Event.main ++ List.replicate k Event.main) =
      waiting_state k := by
  induction k with
  | zero => rfl
  | succ k ih =>
    have hk : List.replicate (k + 1) Event.main = List.replicate k Event.main ++ [Event.main] :=
      List.replicate_succ' k Event.main
    rw [hk, ← List.append_assoc, exec_append, ih]
    simp [exec, step, main_step, waiting_state, polls_succ]

theorem exec_dma_writes (k : Nat) :
    exec CY_RSLT_SUCCESS (waiting_state k) (dma_writes source_data_init) =
      { waiting_state k with destination_data := source_data_init } := by
  rfl

theorem exec_from_waiting_state (k : Nat) :
    exec CY_RSLT_SUCCESS (waiting_state k)
        (dma_writes source_data_init ++ [Event.irq] ++ [Event.main, Event.main, Event.main]) =
      { waiting_state k with
          pc := PC.L165
          destination_data := source_data_init
          dma_complete := 1
          led := true
          trace := setup_trace ++ polls k ++ [Action.write_dma_complete 1] ++
            [Action.XMC_DMA_CH_ClearEventStatus] ++ [Action.read_dma_complete 1] ++
            [Action.read_buffers] ++ [Action.XMC_GPIO_SetOutputHigh] } := by
  rw [List.append_assoc, exec_append, exec_dma_writes]
  have hc : memcmp (array_bytes source_data_init) (array_bytes source_data_init)
      sizeof_source_data = 0 := by decide
  simp [exec, step, GPDMA0_INTERRUPT_HANDLER, XMC_DMA_CH_ClearEventStatus,
    assign_dma_complete, main_step, waiting_state, hc]

theorem idle_exec (bsp : Nat) (gs : List Event) (s : State)
    (h : s.pc = PC.L165 ∧ s.led = true) :
    (exec bsp s gs).pc = PC.L165 ∧ (exec bsp s gs).led = true := by
  apply exec_invariant bsp (fun s => s.pc = PC.L165 ∧ s.led = true) _ _ _ gs s h
  · intro s hs
    obtain ⟨pc, result, src, dst, flag, led, irqen, chen, ev, trace⟩ := s
    have hpc : pc = PC.L165 := hs.1
    subst hpc
    exact hs
  · intro s hs
    exact hs
  · intro i v s hs
    exact hs

/-- C6: in the run where the board initialisation succeeds, `main` polls any
number `k` of times while the DMA engine copies `source_data` = 0..9 faithfully
and the handler fires once: `destination_data` equals `source_data` at every
index, `main` has observed the flag, compared and set the LED, in this order,
and stands in the idle loop with the LED high; whatever happens afterwards it
stays in the idle loop, neither halted nor anywhere else, with the LED high. -/
theorem success_run_ends_idle_with_led_high (k : Nat) (gs : List Event) :
    (exec CY_RSLT_SUCCESS init (success_run k)).source_data = [0, 1, 2, 3, 4, 5, 6, 7, 8, 9] ∧
    (∀ i, i < DATA_LENGTH →
      (exec CY_RSLT_SUCCESS init (success_run k)).destination_data[i]? =
        (exec CY_RSLT_SUCCESS init (success_run k)).source_data[i]?) ∧
    (exec CY_RSLT_SUCCESS init (success_run k)).trace =
      [Action.cybsp_init, Action.cy_retarget_io_init, Action.NVIC_SetPriority,
        Action.NVIC_EnableIRQ, Action.XMC_DMA_CH_Enable] ++
      List.replicate k (Action.read_dma_complete 0) ++
      [Action.write_dma_complete 1, Action.XMC_DMA_CH_ClearEventStatus,
        Action.read_dma_complete 1, Action.read_buffers, Action.XMC_GPIO_SetOutputHigh] ∧
    (exec CY_RSLT_SUCCESS init (success_run k)).pc = PC.L165 ∧
    (exec CY_RSLT_SUCCESS init (success_run k)).led = true ∧
    (exec CY_RSLT_SUCCESS init (success_run k ++ gs)).pc = PC.L165 ∧
    (exec CY_RSLT_SUCCESS init (success_run k ++ gs)).pc ≠ PC.halted ∧
    (exec CY_RSLT_SUCCESS init (success_run k ++ gs)).led = true := by
  have hrun : exec CY_RSLT_SUCCESS init (success_run k) =
      exec CY_RSLT_SUCCESS (waiting_state k)
        (dma_writes source_data_init ++ [Event.irq] ++ [Event.main, Event.main, Event.main]) := by
    rw [success_run, List.append_assoc, List.append_assoc, exec_append,
      exec_to_waiting_state, ← List.append_assoc]
  rw [exec_from_waiting_state] at hrun
  have hidle := idle_exec CY_RSLT_SUCCESS gs (exec CY_RSLT_SUCCESS init (success_run k))
    (by rw [hrun]; exact ⟨rfl, rfl⟩)
  rw [← exec_append] at hidle
  refine ⟨by rw [hrun]; rfl, ?_, ?_, by rw [hrun], by rw [hrun], hidle.1,
    by rw [hidle.1]; decide, hidle.2⟩
  · rw [hrun]
    intro i _
    rfl
  · rw [hrun]
    simp [setup_trace, polls]

/-- Witness of C6: two polls before the copy; afterwards the handler runs again
and `main` takes another step. -/
theorem success_run_ends_idle_with_led_high_witness :
    (exec CY_RSLT_SUCCESS init (success_run 2)).destination_data[9]? =
      (exec CY_RSLT_SUCCESS init (success_run 2)).source_data[9]? ∧
    (exec CY_RSLT_SUCCESS init (success_run 2 ++ [Event.irq, Event.main])).pc = PC.L165 ∧
    (exec CY_RSLT_SUCCESS init (success_run 2 ++ [Event.irq, Event.main])).led = true :=
  ⟨(success_run_ends_idle_with_led_high 2 [Event.irq, Event.main]).2.1 9 (by decide),
   (success_run_ends_idle_with_led_high 2 [Event.irq, Event.main]).2.2.2.2.2.1,
   (success_run_ends_idle_with_led_high 2 [Event.irq, Event.main]).2.2.2.2.2.2.2⟩

/-! ## The comparison of `main` (line 148) -/

/-- C10: over two arrays of 10 words of 32 bits, `memcmp` over
`sizeof(source_data)` = 40 bytes returns 0 exactly when the arrays are equal at
every index 0..9; a difference in any single byte is detected; and the result
depends on no byte beyond the first 40 of either buffer. -/
theorem memcmp_buffers_iff_elementwise (a b : List Nat)
    (hla : a.length = DATA_LENGTH) (hlb : b.length = DATA_LENGTH)
    (ha : ∀ w, w ∈ a → w < 2 ^ 32) (hb : ∀ w, w ∈ b → w < 2 ^ 32) :
    sizeof_source_data = 40 ∧
    (memcmp (array_bytes a) (array_bytes b) sizeof_source_data = 0 ↔
      ∀ i, i < DATA_LENGTH → a[i]? = b[i]?) ∧
    (∀ k, k < sizeof_source_data → array_bytes a k ≠ array_bytes b k →
      memcmp (array_bytes a) (array_bytes b) sizeof_source_data ≠ 0) ∧
    (∀ s1 s2 : Nat → Nat,
      (∀ k, k < sizeof_source_data → s1 k = array_bytes a k) →
      (∀ k, k < sizeof_source_data → s2 k = array_bytes b k) →
      memcmp s1 s2 sizeof_source_data =
        memcmp (array_bytes a) (array_bytes b) sizeof_source_data) := by
  refine ⟨rfl, ?_, ?_, ?_⟩
  · exact memcmp_arrays_eq_zero_iff a b hla hlb ha hb
  · intro k hk hne h0
    rw [memcmp_eq_zero_iff] at h0
    exact hne (h0 k hk)
  · intro s1 s2 h1 h2
    unfold memcmp
    apply memcmp_from_congr
    · intro j hj
      simpa using h1 j hj
    · intro j hj
      simpa using h2 j hj

/-- Witness of C10: the source buffer against a destination whose last element
is 99; the two differ in byte 36, the least significant byte of element 9. -/
theorem memcmp_buffers_iff_elementwise_witness :
    array_bytes source_data_init 36 = 9 ∧
    array_bytes [0, 1, 2, 3, 4, 5, 6, 7, 8, 99] 36 = 99 ∧
    memcmp (array_bytes source_data_init) (array_bytes [0, 1, 2, 3, 4, 5, 6, 7, 8, 99])
      sizeof_source_data ≠ 0 :=
  ⟨by decide, by decide,
   (memcmp_buffers_iff_elementwise source_data_init [0, 1, 2, 3, 4, 5, 6, 7, 8, 99]
      (by decide) (by decide) (by decide) (by decide)).2.2.1 36 (by decide) (by decide)⟩

/-! ## The interrupt handler -/

/-- C8: one run of `GPDMA0_INTERRUPT_HANDLER` from any state has exactly two
effects, in this order: `dma_complete` becomes 1 (while the event status is
still what it was), then the transfer-complete event status is cleared; every
other part of the state, `source_data`, `destination_data` and the LED
included, is left as it was. -/
theorem handler_sets_flag_then_clears_event (s : State) :
    (assign_dma_complete s).dma_complete = 1 ∧
    (assign_dma_complete s).event_status = s.event_status ∧
    GPDMA0_INTERRUPT_HANDLER s =
      { s with dma_complete := 1, event_status := false,
               trace := s.trace ++ [Action.write_dma_complete 1,
                 Action.XMC_DMA_CH_ClearEventStatus] } ∧
    (GPDMA0_INTERRUPT_HANDLER s).source_data = s.source_data ∧
    (GPDMA0_INTERRUPT_HANDLER s).destination_data = s.destination_data ∧
    (GPDMA0_INTERRUPT_HANDLER s).led = s.led := by
  refine ⟨rfl, rfl, ?_, rfl, rfl, rfl⟩
  simp [GPDMA0_INTERRUPT_HANDLER, XMC_DMA_CH_ClearEventStatus, assign_dma_complete]

end XmcDmaM2M
